import Mathlib

/-!
Shallow embedding of `src/aggregator/aggregator/list.go` (package `aggregator`):
the metric list (`metricList`), its flush protocol and size-chunked emission
(`processAggregatedMetric`), and the registry (`metricLists`).

Bytes are modelled as `List Nat`.  The external msgpack encoder is modelled by
its observable effect on the buffer: a call to `encodeFn` either succeeds and
appends the whole record's bytes, or fails after appending some bytes that the
caller truncates away.  The sink (`flushHandler.Handle`) is modelled by the
boolean outcome of each handoff.  Locks disappear in this sequential model;
the time lock / Phase A boundary sampling is not needed by any claim below.
-/

namespace M3Agg

abbrev Bytes := List Nat

/-- Outcome of one `encodeFn` call (external msgpack encoder), as observed by
`processAggregatedMetric`: success appends the record's bytes to the buffer;
failure appends some garbage bytes and leaves the encoder error-sticky. -/
inductive EncodeResult where
  | ok (bs : Bytes)
  | err (written : Bytes)
deriving DecidableEq, Repr

/-- Observable state threaded through emissions: the encoder's current buffer,
the buffers handed to the sink so far (in handoff order), the counters
(`encode-errors`, `flush.errors`, `flush.success`), and the encoder's sticky
error flag (cleared by `Reset`). -/
structure EmitState where
  buffer : Bytes
  handed : List Bytes
  encodeErrors : Nat
  flushErrors : Nat
  flushSuccess : Nat
  stickyError : Bool
deriving DecidableEq, Repr

/-- Encoder state of a freshly constructed list: a reset pool buffer. -/
def initEmitState : EmitState :=
  { buffer := [], handed := [], encodeErrors := 0, flushErrors := 0,
    flushSuccess := 0, stickyError := false }

/-- `(*metricList).processAggregatedMetric` (list.go:220-278), for one emitted
sample.  `r` is the outcome of the `encodeFn` call and `sinkOk` the outcome of
`flushHandler.Handle` if a split handoff happens.
* On encode error: increment `encodeErrors`, `buffer.Truncate(sizeBefore)`,
  `encoder.Reset(encoder)` clearing the sticky error, and return.
* On success, if `sizeAfter < maxFlushSize`, do nothing further.
* Otherwise split: get a fresh reset encoder, write `data[sizeBefore:sizeAfter]`
  into it, swap it in, truncate the old buffer to `sizeBefore`, and hand the
  old buffer to the sink, counting the outcome. -/
def processAggregatedMetric (maxFlushSize : Nat) (s : EmitState)
    (r : EncodeResult) (sinkOk : Bool) : EmitState :=
  let sizeBefore := s.buffer.length
  match r with
  | .err w =>
      let sFail : EmitState := { s with buffer := s.buffer ++ w, stickyError := true }
      { sFail with
          buffer := sFail.buffer.take sizeBefore,
          encodeErrors := sFail.encodeErrors + 1,
          stickyError := false }
  | .ok bs =>
      let buffer := s.buffer ++ bs
      let sizeAfter := buffer.length
      if sizeAfter < maxFlushSize then { s with buffer := buffer }
      else
        let tailRecord := (buffer.drop sizeBefore).take (sizeAfter - sizeBefore)
        let truncated := buffer.take sizeBefore
        { s with
            buffer := tailRecord,
            handed := s.handed ++ [truncated],
            flushErrors := if sinkOk then s.flushErrors else s.flushErrors + 1,
            flushSuccess := if sinkOk then s.flushSuccess + 1 else s.flushSuccess }

/-- A sequence of emissions, each paired with the sink outcome used if that
emission splits. -/
def emitMany (maxFlushSize : Nat) (s : EmitState)
    (rs : List (EncodeResult × Bool)) : EmitState :=
  rs.foldl (fun t p => processAggregatedMetric maxFlushSize t p.1 p.2) s

/-- Phase C of `(*metricList).Flush` (list.go:194-205): if the encoder's buffer
is non-empty, swap in a fresh reset buffer and hand the old one to the sink,
counting the outcome. -/
def flushTail (s : EmitState) (sinkOk : Bool) : EmitState :=
  if s.buffer.length > 0 then
    { s with
        buffer := [],
        handed := s.handed ++ [s.buffer],
        flushErrors := if sinkOk then s.flushErrors else s.flushErrors + 1,
        flushSuccess := if sinkOk then s.flushSuccess + 1 else s.flushSuccess }
  else s

/-- The bytes a single emission successfully encodes (empty on encode error). -/
def okBytes : EncodeResult → Bytes
  | .ok bs => bs
  | .err _ => []

/-- The successfully-encoded records of an emission sequence, in order. -/
def okRecords (rs : List (EncodeResult × Bool)) : List Bytes :=
  rs.filterMap (fun p =>
    match p.1 with
    | .ok bs => some bs
    | .err _ => none)

/-- A sequence of flushes, each given by its emission sequence (Phase B) and
the sink outcome of its Phase C tail handoff. -/
def runFlushes (maxFlushSize : Nat) (s : EmitState) :
    List (List (EncodeResult × Bool) × Bool) → EmitState
  | [] => s
  | f :: fs => runFlushes maxFlushSize (flushTail (emitMany maxFlushSize s f.1) f.2) fs

/-- All successfully-encoded records across a sequence of flushes. -/
def allOkRecords (fs : List (List (EncodeResult × Bool) × Bool)) : List Bytes :=
  (fs.map (fun f => okRecords f.1)).flatten

/-- A metric element (`metricElem`, external to list.go), characterised by its
observable behaviour during one flush: the samples it emits through
`aggMetricFn` inside `Consume` (each with the encode outcome and, if that
emission splits, the sink outcome), and the boolean `Consume` returns
(eligible for collection). -/
structure MetricElem where
  emits : List (EncodeResult × Bool)
  consumeResult : Bool
deriving DecidableEq, Repr

/-- Entries of `aggregations` are `(*list.Element).Value`: a metric element, or
`nil` for a tombstoned handle. -/
abbrev Handle := Option MetricElem

/-- Result of Phase B of a flush: for each handle, its value after the loop and
whether it was appended to `toCollect`; the elements on which `Consume` was
called, in iteration order; the elements that were closed; and the emission
state after all `aggMetricFn` callbacks. -/
structure PhaseBResult where
  entries : List (Handle × Bool)
  consumed : List MetricElem
  closedElems : List MetricElem
  emit : EmitState
deriving DecidableEq, Repr

/-- Phase B of `(*metricList).Flush` (list.go:181-192), totalised: iterate the
handles head to tail; on each handle `Consume` is called on the payload
(emitting through `processAggregatedMetric`) and, if it returns true, the
element is closed, the handle's value set to `nil`, and the handle appended to
`toCollect`.  The source type-asserts `e.Value.(metricElem)` unconditionally
at list.go:185, so a `nil` value makes the loop panic rather than skip — that
faithful semantics is `phaseBGo` below; this total variant gives the `nil`
case a skip and is used only on handle lists that all carry payloads, where
the two agree (`phaseBGo_eq_phaseB`). -/
def phaseB (maxFlushSize : Nat) (s : EmitState) :
    List Handle → PhaseBResult
  | [] => { entries := [], consumed := [], closedElems := [], emit := s }
  | none :: rest =>
      let r := phaseB maxFlushSize s rest
      { r with entries := (none, false) :: r.entries }
  | some e :: rest =>
      let s1 := emitMany maxFlushSize s e.emits
      let r := phaseB maxFlushSize s1 rest
      if e.consumeResult then
        { entries := (none, true) :: r.entries,
          consumed := e :: r.consumed,
          closedElems := e :: r.closedElems,
          emit := r.emit }
      else
        { entries := (some e, false) :: r.entries,
          consumed := e :: r.consumed,
          closedElems := r.closedElems,
          emit := r.emit }

/-- Phase B of `(*metricList).Flush` exactly as the source executes it
(list.go:181-192): the loop body runs `elem := e.Value.(metricElem)` with no
nil check (list.go:185), so a handle whose value is `nil` makes the flush
panic — modelled as `none`.  There is no skip in the source. -/
def phaseBGo (maxFlushSize : Nat) (s : EmitState) :
    List Handle → Option PhaseBResult
  | [] => some { entries := [], consumed := [], closedElems := [], emit := s }
  | none :: _ => none
  | some e :: rest =>
      let s1 := emitMany maxFlushSize s e.emits
      match phaseBGo maxFlushSize s1 rest with
      | none => none
      | some r =>
          if e.consumeResult then
            some { entries := (none, true) :: r.entries,
                   consumed := e :: r.consumed,
                   closedElems := e :: r.closedElems,
                   emit := r.emit }
          else
            some { entries := (some e, false) :: r.entries,
                   consumed := e :: r.consumed,
                   closedElems := r.closedElems,
                   emit := r.emit }

/-- Phase D of `(*metricList).Flush` (list.go:208-213): remove from
`aggregations` exactly the handles collected in `toCollect`. -/
def phaseD (entries : List (Handle × Bool)) : List Handle :=
  (entries.filter (fun p => !p.2)).map Prod.fst

/-- Errors surfaced at the API (list.go:39-42). -/
inductive ListErr where
  | listClosed
  | listsClosed
deriving DecidableEq, Repr

/-- The options consulted by `newMetricList` that the claims depend on. -/
structure Options where
  minFlushInterval : Nat
  maxFlushSize : Nat
deriving DecidableEq, Repr

/-- State of one `metricList` (list.go:67-87).  Durations are nanosecond
counts. -/
structure MetricListState where
  resolution : Nat
  flushInterval : Nat
  maxFlushSize : Nat
  aggregations : List Handle
  closed : Bool
  emit : EmitState
deriving DecidableEq, Repr

/-- `newMetricList` (list.go:89-123): the flush interval is the resolution,
raised to the minimum flush interval when the resolution is smaller; the
encoder starts on a fresh pool buffer; `aggregations` starts empty. -/
def newMetricList (resolution : Nat) (opts : Options) : MetricListState :=
  let flushInterval :=
    if resolution < opts.minFlushInterval then opts.minFlushInterval else resolution
  { resolution := resolution,
    flushInterval := flushInterval,
    maxFlushSize := opts.maxFlushSize,
    aggregations := [],
    closed := false,
    emit := initEmitState }

/-- `(*metricList).PushBack` (list.go:144-153): fails with `errListClosed` on a
closed list, otherwise appends at the tail and returns the handle (modelled as
the element's index). -/
def PushBack (st : MetricListState) (v : MetricElem) :
    MetricListState × Except ListErr Nat :=
  if st.closed then (st, .error .listClosed)
  else ({ st with aggregations := st.aggregations ++ [some v] },
        .ok st.aggregations.length)

/-- `(*metricList).Close` (list.go:156-164): returns immediately when already
closed, otherwise sets `closed`. -/
def MetricListState.Close (st : MetricListState) : MetricListState :=
  if st.closed then st else { st with closed := true }

/-- Result of one `(*metricList).Flush` call: the new list state plus the
flush's observable trace. -/
structure FlushOutcome where
  state : MetricListState
  consumed : List MetricElem
  closedElems : List MetricElem
  numCollected : Nat
deriving DecidableEq, Repr

/-- `(*metricList).Flush` (list.go:166-218) without Phase A boundary sampling
(no claim depends on the boundary value): Phase B consume, Phase C tail flush
with sink outcome `tailSinkOk`, Phase D collect. -/
def MetricListState.Flush (st : MetricListState) (tailSinkOk : Bool) :
    FlushOutcome :=
  let r := phaseB st.maxFlushSize st.emit st.aggregations
  let afterTail := flushTail r.emit tailSinkOk
  let newAggs := phaseD r.entries
  { state := { st with aggregations := newAggs, emit := afterTail },
    consumed := r.consumed,
    closedElems := r.closedElems,
    numCollected := (r.entries.filter (fun p => p.2)).length }

/-- `(*metricList).Flush` with Phase B exactly as the source executes it:
`none` when the Phase B loop panics on a handle whose value is `nil`
(list.go:185); otherwise identical to `Flush`. -/
def MetricListState.FlushGo (st : MetricListState) (tailSinkOk : Bool) :
    Option FlushOutcome :=
  match phaseBGo st.maxFlushSize st.emit st.aggregations with
  | none => none
  | some r =>
      let afterTail := flushTail r.emit tailSinkOk
      let newAggs := phaseD r.entries
      some { state := { st with aggregations := newAggs, emit := afterTail },
             consumed := r.consumed,
             closedElems := r.closedElems,
             numCollected := (r.entries.filter (fun p => p.2)).length }

/-- A sequence of `PushBack` calls, collecting each call's result. -/
def pushMany (st : MetricListState) :
    List MetricElem → MetricListState × List (Except ListErr Nat)
  | [] => (st, [])
  | v :: vs =>
      let r1 := PushBack st v
      let r2 := pushMany r1.1 vs
      (r2.1, r1.2 :: r2.2)

/-- State of the `metricLists` registry (list.go:283-290); the map from
resolution to list is an association list with unique keys. -/
structure MetricLists where
  opts : Options
  closed : Bool
  lists : List (Nat × MetricListState)
deriving DecidableEq, Repr

/-- `newMetricLists` (list.go:292-298). -/
def newMetricLists (opts : Options) : MetricLists :=
  { opts := opts, closed := false, lists := [] }

/-- `(*metricLists).FindOrCreate` (list.go:310-336).  The double-checked
locking (read-check, release, write-check) collapses in this sequential model
to one check: fail with `errListsClosed` when closed, return the existing list
when present, otherwise create, register and return a new list. -/
def MetricLists.FindOrCreate (L : MetricLists) (resolution : Nat) :
    MetricLists × Except ListErr MetricListState :=
  if L.closed then (L, .error .listsClosed)
  else
    match L.lists.lookup resolution with
    | some l => (L, .ok l)
    | none =>
        let nl := newMetricList resolution L.opts
        ({ L with lists := L.lists ++ [(resolution, nl)] }, .ok nl)

/-- `(*metricLists).Close` (list.go:353-364): returns immediately when already
closed, otherwise sets `closed` and closes every contained list. -/
def MetricLists.Close (L : MetricLists) : MetricLists :=
  if L.closed then L
  else { L with closed := true,
                lists := L.lists.map (fun p => (p.1, p.2.Close)) }

/-- Whether a `FindOrCreate` result is a list (not an error). -/
def isOkResult : Except ListErr MetricListState → Bool
  | .ok _ => true
  | .error _ => false

/-- `n` successive calls to `(*metricList).Close`. -/
def closeListN : Nat → MetricListState → MetricListState
  | 0, st => st
  | n + 1, st => (closeListN n st).Close

/-- `n` successive calls to `(*metricLists).Close`. -/
def closeListsN : Nat → MetricLists → MetricLists
  | 0, L => L
  | n + 1, L => (closeListsN n L).Close

/-! ### Helper lemmas -/

/-- On a split, `processAggregatedMetric` hands off the pre-encode buffer
content (truncated to `sizeBefore`) and keeps the whole just-encoded record as
the new current buffer. -/
lemma processAggregatedMetric_ok_split (maxFlushSize : Nat) (s : EmitState)
    (bs : Bytes) (sinkOk : Bool)
    (h : ¬ s.buffer.length + bs.length < maxFlushSize) :
    processAggregatedMetric maxFlushSize s (.ok bs) sinkOk =
      { s with
          buffer := bs,
          handed := s.handed ++ [s.buffer],
          flushErrors := if sinkOk then s.flushErrors else s.flushErrors + 1,
          flushSuccess := if sinkOk then s.flushSuccess + 1 else s.flushSuccess } := by
  simp [processAggregatedMetric, h, List.drop_left, List.take_left,
    Nat.add_sub_cancel_left, List.take_length]

/-- When the post-encode size stays below the threshold, the record is merely
appended to the buffer. -/
lemma processAggregatedMetric_ok_buffered (maxFlushSize : Nat) (s : EmitState)
    (bs : Bytes) (sinkOk : Bool)
    (h : s.buffer.length + bs.length < maxFlushSize) :
    processAggregatedMetric maxFlushSize s (.ok bs) sinkOk =
      { s with buffer := s.buffer ++ bs } := by
  simp [processAggregatedMetric, h]

/-- Phase C always leaves the current buffer empty. -/
lemma flushTail_buffer (s : EmitState) (sinkOk : Bool) :
    (flushTail s sinkOk).buffer = [] := by
  unfold flushTail
  split
  · rfl
  · rename_i h
    have h0 : s.buffer.length = 0 := by omega
    exact List.length_eq_zero.mp h0

/-- One emission preserves the accounting identity: bytes handed so far plus
the current buffer equal all successfully-encoded bytes so far. -/
lemma processAggregatedMetric_flatten (maxFlushSize : Nat) (s : EmitState)
    (r : EncodeResult) (sinkOk : Bool) :
    (processAggregatedMetric maxFlushSize s r sinkOk).handed.flatten
        ++ (processAggregatedMetric maxFlushSize s r sinkOk).buffer
      = s.handed.flatten ++ s.buffer ++ okBytes r := by
  cases r with
  | err w => simp [processAggregatedMetric, List.take_left, okBytes]
  | ok bs =>
      by_cases h : s.buffer.length + bs.length < maxFlushSize
      · rw [processAggregatedMetric_ok_buffered maxFlushSize s bs sinkOk h]
        simp [okBytes]
      · rw [processAggregatedMetric_ok_split maxFlushSize s bs sinkOk h]
        simp [okBytes]

lemma okRecords_nil : okRecords [] = [] := rfl

lemma okRecords_cons (p : EncodeResult × Bool) (ps : List (EncodeResult × Bool)) :
    okRecords (p :: ps)
      = (match p.1 with
          | .ok bs => bs :: okRecords ps
          | .err _ => okRecords ps) := by
  cases h : p.1 <;> simp [okRecords, h]

lemma emitMany_cons (maxFlushSize : Nat) (s : EmitState)
    (p : EncodeResult × Bool) (ps : List (EncodeResult × Bool)) :
    emitMany maxFlushSize s (p :: ps)
      = emitMany maxFlushSize (processAggregatedMetric maxFlushSize s p.1 p.2) ps := rfl

/-- Emission sequences preserve the accounting identity. -/
lemma emitMany_flatten (maxFlushSize : Nat)
    (rs : List (EncodeResult × Bool)) :
    ∀ s : EmitState,
      (emitMany maxFlushSize s rs).handed.flatten
          ++ (emitMany maxFlushSize s rs).buffer
        = s.handed.flatten ++ s.buffer ++ (okRecords rs).flatten := by
  induction rs with
  | nil => intro s; simp [emitMany, okRecords]
  | cons p ps ih =>
      intro s
      rw [emitMany_cons, ih, processAggregatedMetric_flatten, okRecords_cons]
      cases h : p.1 <;> simp [okBytes]

/-- Phase C preserves the accounting identity. -/
lemma flushTail_flatten (s : EmitState) (sinkOk : Bool) :
    (flushTail s sinkOk).handed.flatten ++ (flushTail s sinkOk).buffer
      = s.handed.flatten ++ s.buffer := by
  unfold flushTail
  split <;> simp

lemma allOkRecords_cons (f : List (EncodeResult × Bool) × Bool)
    (fs : List (List (EncodeResult × Bool) × Bool)) :
    allOkRecords (f :: fs) = okRecords f.1 ++ allOkRecords fs := by
  simp [allOkRecords]

/-- A sequence of flushes preserves the accounting identity. -/
lemma runFlushes_flatten (maxFlushSize : Nat)
    (fs : List (List (EncodeResult × Bool) × Bool)) :
    ∀ s : EmitState,
      (runFlushes maxFlushSize s fs).handed.flatten
          ++ (runFlushes maxFlushSize s fs).buffer
        = s.handed.flatten ++ s.buffer ++ (allOkRecords fs).flatten := by
  induction fs with
  | nil => intro s; simp [runFlushes, allOkRecords]
  | cons f fs ih =>
      intro s
      show (runFlushes maxFlushSize (flushTail (emitMany maxFlushSize s f.1) f.2) fs).handed.flatten
          ++ (runFlushes maxFlushSize (flushTail (emitMany maxFlushSize s f.1) f.2) fs).buffer
        = s.handed.flatten ++ s.buffer ++ (allOkRecords (f :: fs)).flatten
      rw [ih, flushTail_flatten, emitMany_flatten, allOkRecords_cons]
      simp

/-- After a non-empty sequence of flushes (and vacuously after none, starting
from a fresh list), the current buffer is empty. -/
lemma runFlushes_buffer (maxFlushSize : Nat)
    (fs : List (List (EncodeResult × Bool) × Bool)) :
    ∀ s : EmitState, s.buffer = [] →
      (runFlushes maxFlushSize s fs).buffer = [] := by
  induction fs with
  | nil => intro s hs; exact hs
  | cons f fs ih =>
      intro s _
      exact ih _ (flushTail_buffer _ _)

/-- Phase B calls `Consume` exactly on the non-null handles, in order,
whatever the starting emission state. -/
lemma phaseB_consumed (maxFlushSize : Nat) (hs : List Handle) :
    ∀ s : EmitState, (phaseB maxFlushSize s hs).consumed = hs.filterMap id := by
  induction hs with
  | nil => intro s; simp [phaseB]
  | cons h rest ih =>
      intro s
      cases h with
      | none => simp [phaseB, ih]
      | some e =>
          by_cases hc : e.consumeResult <;> simp [phaseB, hc, ih]

/-- Phase B closes exactly the elements whose `Consume` returned true. -/
lemma phaseB_closedElems (maxFlushSize : Nat) (hs : List Handle) :
    ∀ s : EmitState,
      (phaseB maxFlushSize s hs).closedElems
        = (hs.filterMap id).filter (fun e => e.consumeResult) := by
  induction hs with
  | nil => intro s; simp [phaseB]
  | cons h rest ih =>
      intro s
      cases h with
      | none => simp [phaseB, ih]
      | some e =>
          by_cases hc : e.consumeResult <;> simp [phaseB, hc, ih]

/-- On a handle list that all carries payloads — the state every flush starts
from — the source's panicking Phase B does not fault, and agrees with the
totalised `phaseB`. -/
lemma phaseBGo_eq_phaseB (maxFlushSize : Nat) (hs : List Handle) :
    ∀ s : EmitState, hs.all Option.isSome = true →
      phaseBGo maxFlushSize s hs = some (phaseB maxFlushSize s hs) := by
  induction hs with
  | nil => intro s _; rfl
  | cons x rest ih =>
      intro s h
      cases x with
      | none => simp at h
      | some e =>
          have hrest : rest.all Option.isSome = true := by
            simpa using h
          by_cases hc : e.consumeResult <;>
            simp [phaseBGo, phaseB, hc, ih _ hrest]

/-- On a list state satisfying the flush-start invariant, the source's
panicking flush returns and agrees with the totalised `Flush`. -/
lemma flushGo_eq_flush (st : MetricListState) (tailSinkOk : Bool)
    (h : st.aggregations.all Option.isSome = true) :
    st.FlushGo tailSinkOk = some (st.Flush tailSinkOk) := by
  unfold MetricListState.FlushGo MetricListState.Flush
  rw [phaseBGo_eq_phaseB st.maxFlushSize st.aggregations st.emit h]

/-- Net effect of Phase B tombstoning followed by Phase D collection on a list
of handles that all carry a payload: exactly the elements whose `Consume`
returned false remain, in order, each still carried by a live handle. -/
lemma phaseD_phaseB (maxFlushSize : Nat) (s : EmitState) (hs : List Handle)
    (h : hs.all Option.isSome = true) :
    phaseD (phaseB maxFlushSize s hs).entries
      = ((hs.filterMap id).filter (fun e => !e.consumeResult)).map some := by
  induction hs generalizing s with
  | nil => simp [phaseB, phaseD]
  | cons x rest ih =>
      cases x with
      | none => simp at h
      | some e =>
          have hrest : rest.all Option.isSome = true := by
            simpa using h
          have hrec := ih (emitMany maxFlushSize s e.emits) hrest
          by_cases hc : e.consumeResult <;>
            simp [phaseB, phaseD, hc] at hrec ⊢ <;>
            simp [hrec]

/-- `Close` leaves a list closed. -/
lemma closeList_closed (st : MetricListState) : st.Close.closed = true := by
  unfold MetricListState.Close
  split <;> simp_all

/-- `Close` does not touch `aggregations`. -/
lemma closeList_aggregations (st : MetricListState) :
    st.Close.aggregations = st.aggregations := by
  unfold MetricListState.Close
  split <;> rfl

/-- `PushBack` on a closed list fails and changes nothing. -/
lemma pushBack_closed (st : MetricListState) (v : MetricElem)
    (h : st.closed = true) :
    PushBack st v = (st, .error .listClosed) := by
  simp [PushBack, h]

/-- Any sequence of `PushBack`s on a closed list fails throughout and changes
nothing. -/
lemma pushMany_of_closed (vs : List MetricElem) :
    ∀ st : MetricListState, st.closed = true →
      pushMany st vs = (st, vs.map fun _ => Except.error ListErr.listClosed) := by
  induction vs with
  | nil => intro st _; rfl
  | cons v vs ih =>
      intro st h
      simp [pushMany, pushBack_closed st v h, ih st h]

/-- `(*metricList).Close` is idempotent. -/
lemma closeList_idem (st : MetricListState) : st.Close.Close = st.Close := by
  unfold MetricListState.Close
  split <;> simp_all

/-- `Close` leaves the registry closed. -/
lemma closeLists_closed (L : MetricLists) : L.Close.closed = true := by
  unfold MetricLists.Close
  split <;> simp_all

/-- `Close` on an already-closed registry changes nothing. -/
lemma closeLists_of_closed (L : MetricLists) (h : L.closed = true) :
    L.Close = L := by
  unfold MetricLists.Close
  simp [h]

/-- `(*metricLists).Close` is idempotent. -/
lemma closeLists_idem (L : MetricLists) : L.Close.Close = L.Close :=
  closeLists_of_closed L.Close (closeLists_closed L)

/-- `n + 1` list closes equal one. -/
lemma closeListN_succ (st : MetricListState) :
    ∀ n : Nat, closeListN (n + 1) st = st.Close := by
  intro n
  induction n with
  | zero => rfl
  | succ m ih =>
      show (closeListN (m + 1) st).Close = st.Close
      rw [ih, closeList_idem]

/-- `n + 1` registry closes equal one. -/
lemma closeListsN_succ (L : MetricLists) :
    ∀ n : Nat, closeListsN (n + 1) L = L.Close := by
  intro n
  induction n with
  | zero => rfl
  | succ m ih =>
      show (closeListsN (m + 1) L).Close = L.Close
      rw [ih, closeLists_idem]

/-- Appending a fresh key at the end of an association list in which the key
is absent makes lookup find it. -/
lemma lookup_append_of_none (r : Nat) (x : MetricListState)
    (l : List (Nat × MetricListState)) (h : l.lookup r = none) :
    (l ++ [(r, x)]).lookup r = some x := by
  induction l with
  | nil => simp [List.lookup]
  | cons p ps ih =>
      obtain ⟨k, v⟩ := p
      rw [List.lookup_cons] at h
      rw [List.cons_append, List.lookup_cons]
      by_cases hk : (r == k) = true
      · rw [hk] at h
        exact absurd h (by simp)
      · have hk2 : (r == k) = false := by
          simpa using hk
        rw [hk2] at h
        rw [hk2]
        exact ih h

end M3Agg

namespace M3Agg

/-! ### Claims -/

/-- C1, counterexample.  With `max_flush_size = 2`, a buffer holding `[7]`
(`size_before = 1`) and a successfully encoded record `[8, 9]` (size 2), the
threshold is crossed (`size_after = 3 ≥ 2`).  The claim predicts the buffer
handed to the sink has length `size_before + record size = 3`; the code hands
the buffer `[7]` of length `1 = size_before`, because the tail record is
copied into the fresh buffer and the original is truncated to `size_before`
before the handoff. -/
theorem C1_handed_length_counterexample :
    (processAggregatedMetric 2
      { buffer := [7], handed := [], encodeErrors := 0, flushErrors := 0,
        flushSuccess := 0, stickyError := false }
      (.ok [8, 9]) true).handed = [[7]] ∧
    (processAggregatedMetric 2
      { buffer := [7], handed := [], encodeErrors := 0, flushErrors := 0,
        flushSuccess := 0, stickyError := false }
      (.ok [8, 9]) true).buffer = [8, 9] ∧
    ([7] : Bytes).length ≠ 1 + ([8, 9] : Bytes).length := by
  refine ⟨by decide, by decide, by decide⟩

/-- C1, amended: when a successful `EncodeRecord` makes the buffer reach
`max_flush_size` (`size_before + record size ≥ max_flush_size`), exactly one
buffer is handed to the sink, namely the previous buffer content truncated to
`size_before` (so no record is split: the just-encoded tail record is carried
whole into the fresh current buffer, and the handed buffer consists of the
previously-buffered whole records); the handed buffer's length is
`size_before`, not `size_before` plus the size of the record just encoded. -/
theorem C1_split_hands_truncated_buffer (maxFlushSize : Nat) (s : EmitState)
    (bs : Bytes) (sinkOk : Bool)
    (h : ¬ s.buffer.length + bs.length < maxFlushSize) :
    (processAggregatedMetric maxFlushSize s (.ok bs) sinkOk).handed
        = s.handed ++ [s.buffer] ∧
    (processAggregatedMetric maxFlushSize s (.ok bs) sinkOk).buffer = bs := by
  rw [processAggregatedMetric_ok_split maxFlushSize s bs sinkOk h]
  exact ⟨rfl, rfl⟩

/-- C1, witness for the amended theorem at `max_flush_size = 2`,
buffer `[7]`, record `[8, 9]`. -/
theorem C1_split_hands_truncated_buffer_witness :
    (processAggregatedMetric 2
      { buffer := [7], handed := [], encodeErrors := 0, flushErrors := 0,
        flushSuccess := 0, stickyError := false }
      (.ok [8, 9]) true).handed
        = [] ++ [[7]] ∧
    (processAggregatedMetric 2
      { buffer := [7], handed := [], encodeErrors := 0, flushErrors := 0,
        flushSuccess := 0, stickyError := false }
      (.ok [8, 9]) true).buffer = [8, 9] :=
  C1_split_hands_truncated_buffer 2
    { buffer := [7], handed := [], encodeErrors := 0, flushErrors := 0,
      flushSuccess := 0, stickyError := false }
    [8, 9] true (by decide)

/-- C2: for any sequence of emissions within flushes of one list — however
many times the buffer crosses `max_flush_size` — the concatenation of all
buffers handed to the sink (mid-flush splits plus each flush's Phase C tail
handoff) equals exactly the concatenation of all successfully-encoded records,
in emission order. -/
theorem C2_split_preservation (maxFlushSize : Nat)
    (fs : List (List (EncodeResult × Bool) × Bool)) :
    (runFlushes maxFlushSize initEmitState fs).handed.flatten
      = (allOkRecords fs).flatten := by
  have h := runFlushes_flatten maxFlushSize fs initEmitState
  have hb := runFlushes_buffer maxFlushSize fs initEmitState rfl
  rw [hb] at h
  simpa [initEmitState] using h

/-- C3: when `encodeFn` fails, the emission leaves the buffer byte-identical
to its pre-call state (truncated back to `size_before`), hands nothing to the
sink, increments `encode_errors` by one, clears the encoder's sticky error by
resetting with the same buffer, and returns (the flush continues; the other
counters are untouched). -/
theorem C3_encode_error_drops_sample (maxFlushSize : Nat) (s : EmitState)
    (w : Bytes) (sinkOk : Bool) :
    processAggregatedMetric maxFlushSize s (.err w) sinkOk =
      { s with encodeErrors := s.encodeErrors + 1, stickyError := false } := by
  simp [processAggregatedMetric, List.take_left]

/-- C4: after any flush of a list whose handles all carry a payload (the state
every reachable flush starts from, since `PushBack` only appends non-null
payloads and each flush removes all handles it tombstones), the handles
remaining in `aggregations` are exactly those of the elements whose `Consume`
returned false, in order; hence their number equals the count of elements
whose last `Consume` returned false; every element whose `Consume` returned
true was closed during the flush; and no tombstoned (null-payload) handle
survives the flush. -/
theorem C4_post_flush_aggregations (st : MetricListState) (tailSinkOk : Bool)
    (h : st.aggregations.all Option.isSome = true) :
    (st.Flush tailSinkOk).state.aggregations
        = ((st.aggregations.filterMap id).filter
            (fun e => !e.consumeResult)).map some ∧
    (st.Flush tailSinkOk).state.aggregations.length
        = (st.aggregations.filterMap id).countP (fun e => !e.consumeResult) ∧
    (st.Flush tailSinkOk).closedElems
        = (st.aggregations.filterMap id).filter (fun e => e.consumeResult) ∧
    (st.Flush tailSinkOk).state.aggregations.all Option.isSome = true := by
  have hmain := phaseD_phaseB st.maxFlushSize st.emit st.aggregations h
  have hcl := phaseB_closedElems st.maxFlushSize st.aggregations st.emit
  refine ⟨?_, ?_, ?_, ?_⟩
  · simpa [MetricListState.Flush] using hmain
  · simp [MetricListState.Flush, hmain, List.countP_eq_length_filter]
  · simpa [MetricListState.Flush] using hcl
  · have h4 : (st.Flush tailSinkOk).state.aggregations
        = ((st.aggregations.filterMap id).filter
            (fun e => !e.consumeResult)).map some := by
      simpa [MetricListState.Flush] using hmain
    rw [h4]
    refine List.all_eq_true.mpr ?_
    intro x hx
    obtain ⟨y, _, rfl⟩ := List.mem_map.mp hx
    rfl

/-- C4, witness: a list of two live elements, the first eligible for
collection, the second not. -/
theorem C4_post_flush_aggregations_witness :
    (({ resolution := 10, flushInterval := 10, maxFlushSize := 100,
        aggregations := [some { emits := [(.ok [1], true)], consumeResult := true },
                         some { emits := [(.ok [2], true)], consumeResult := false }],
        closed := false, emit := initEmitState } :
        MetricListState).aggregations.all Option.isSome = true) ∧
    (({ resolution := 10, flushInterval := 10, maxFlushSize := 100,
        aggregations := [some { emits := [(.ok [1], true)], consumeResult := true },
                         some { emits := [(.ok [2], true)], consumeResult := false }],
        closed := false, emit := initEmitState } :
        MetricListState).Flush true).state.aggregations
        = ((([some { emits := [(.ok [1], true)], consumeResult := true },
              some { emits := [(.ok [2], true)], consumeResult := false }] :
              List Handle).filterMap id).filter
            (fun e => !e.consumeResult)).map some ∧
    (({ resolution := 10, flushInterval := 10, maxFlushSize := 100,
        aggregations := [some { emits := [(.ok [1], true)], consumeResult := true },
                         some { emits := [(.ok [2], true)], consumeResult := false }],
        closed := false, emit := initEmitState } :
        MetricListState).Flush true).state.aggregations.length
        = (([some { emits := [(.ok [1], true)], consumeResult := true },
             some { emits := [(.ok [2], true)], consumeResult := false }] :
             List Handle).filterMap id).countP (fun e => !e.consumeResult) ∧
    (({ resolution := 10, flushInterval := 10, maxFlushSize := 100,
        aggregations := [some { emits := [(.ok [1], true)], consumeResult := true },
                         some { emits := [(.ok [2], true)], consumeResult := false }],
        closed := false, emit := initEmitState } :
        MetricListState).Flush true).closedElems
        = (([some { emits := [(.ok [1], true)], consumeResult := true },
             some { emits := [(.ok [2], true)], consumeResult := false }] :
             List Handle).filterMap id).filter (fun e => e.consumeResult) ∧
    (({ resolution := 10, flushInterval := 10, maxFlushSize := 100,
        aggregations := [some { emits := [(.ok [1], true)], consumeResult := true },
                         some { emits := [(.ok [2], true)], consumeResult := false }],
        closed := false, emit := initEmitState } :
        MetricListState).Flush true).state.aggregations.all Option.isSome = true :=
  ⟨by decide,
   C4_post_flush_aggregations
     { resolution := 10, flushInterval := 10, maxFlushSize := 100,
       aggregations := [some { emits := [(.ok [1], true)], consumeResult := true },
                        some { emits := [(.ok [2], true)], consumeResult := false }],
       closed := false, emit := initEmitState }
     true (by decide)⟩

/-- C5, counterexample.  A handle in `aggregations` whose payload is null is
not skipped: the Phase B loop body type-asserts `e.Value.(metricElem)` with no
nil check (list.go:185), so on a list holding one tombstoned handle the
iteration faults — the flush panics (`none`) instead of returning an
outcome. -/
theorem C5_nil_handle_faults_counterexample :
    ({ resolution := 10, flushInterval := 10, maxFlushSize := 4,
       aggregations := [none], closed := false, emit := initEmitState } :
       MetricListState).FlushGo true = none ∧
    phaseBGo 4 initEmitState [none] = none := by
  exact ⟨rfl, rfl⟩

/-- C5, amended: Phase B dereferences every handle's payload unconditionally
(the source has no nil check), so during Phase B of every flush that starts
from the flush-start invariant — every handle in `aggregations` carries a
payload — the iteration does not fault and `Consume` is invoked exactly on
the handles whose payload is non-null, that is on all of them, in iteration
order; a null-payload handle would not be skipped but would make the flush
panic. -/
theorem C5_consume_all_handles (st : MetricListState) (tailSinkOk : Bool)
    (h : st.aggregations.all Option.isSome = true) :
    st.FlushGo tailSinkOk = some (st.Flush tailSinkOk) ∧
    (st.Flush tailSinkOk).consumed = st.aggregations.filterMap id := by
  refine ⟨flushGo_eq_flush st tailSinkOk h, ?_⟩
  simpa [MetricListState.Flush] using
    phaseB_consumed st.maxFlushSize st.aggregations st.emit

/-- C5, witness: a list of two live elements, one of each `Consume`
outcome. -/
theorem C5_consume_all_handles_witness :
    ({ resolution := 10, flushInterval := 10, maxFlushSize := 100,
       aggregations := [some { emits := [(.ok [1], true)], consumeResult := true },
                        some { emits := [], consumeResult := false }],
       closed := false, emit := initEmitState } :
       MetricListState).aggregations.all Option.isSome = true ∧
    (({ resolution := 10, flushInterval := 10, maxFlushSize := 100,
        aggregations := [some { emits := [(.ok [1], true)], consumeResult := true },
                         some { emits := [], consumeResult := false }],
        closed := false, emit := initEmitState } :
        MetricListState).FlushGo true
        = some (({ resolution := 10, flushInterval := 10, maxFlushSize := 100,
                   aggregations := [some { emits := [(.ok [1], true)], consumeResult := true },
                                    some { emits := [], consumeResult := false }],
                   closed := false, emit := initEmitState } :
                   MetricListState).Flush true) ∧
     (({ resolution := 10, flushInterval := 10, maxFlushSize := 100,
         aggregations := [some { emits := [(.ok [1], true)], consumeResult := true },
                          some { emits := [], consumeResult := false }],
         closed := false, emit := initEmitState } :
         MetricListState).Flush true).consumed
        = ([some { emits := [(.ok [1], true)], consumeResult := true },
            some { emits := [], consumeResult := false }] :
            List Handle).filterMap id) :=
  ⟨by decide,
   C5_consume_all_handles
     { resolution := 10, flushInterval := 10, maxFlushSize := 100,
       aggregations := [some { emits := [(.ok [1], true)], consumeResult := true },
                        some { emits := [], consumeResult := false }],
       closed := false, emit := initEmitState }
     true (by decide)⟩

/-- C6: after `Close` has returned, every subsequent `PushBack` fails with the
`errListClosed` error and leaves the state — in particular `aggregations` —
unchanged; while the list is not closed, `PushBack` appends the payload at the
tail and returns its handle without error. -/
theorem C6_pushback_closed_open (st : MetricListState) (v : MetricElem)
    (vs : List MetricElem) (h : st.closed = false) :
    (pushMany st.Close vs).1 = st.Close ∧
    st.Close.aggregations = st.aggregations ∧
    (pushMany st.Close vs).2
        = vs.map (fun _ => Except.error ListErr.listClosed) ∧
    PushBack st v
        = ({ st with aggregations := st.aggregations ++ [some v] },
           Except.ok st.aggregations.length) := by
  have hp := pushMany_of_closed vs st.Close (closeList_closed st)
  refine ⟨by rw [hp], closeList_aggregations st, by rw [hp], ?_⟩
  simp [PushBack, h]

/-- C6, witness: a fresh open list, one `PushBack` after `Close` and one while
open. -/
theorem C6_pushback_closed_open_witness :
    (newMetricList 5 { minFlushInterval := 1, maxFlushSize := 4 }).closed = false ∧
    ((pushMany (newMetricList 5 { minFlushInterval := 1, maxFlushSize := 4 }).Close
        [{ emits := [], consumeResult := false }]).1
        = (newMetricList 5 { minFlushInterval := 1, maxFlushSize := 4 }).Close ∧
     (newMetricList 5 { minFlushInterval := 1, maxFlushSize := 4 }).Close.aggregations
        = (newMetricList 5 { minFlushInterval := 1, maxFlushSize := 4 }).aggregations ∧
     (pushMany (newMetricList 5 { minFlushInterval := 1, maxFlushSize := 4 }).Close
        [{ emits := [], consumeResult := false }]).2
        = [({ emits := [], consumeResult := false } : MetricElem)].map
            (fun _ => Except.error ListErr.listClosed) ∧
     PushBack (newMetricList 5 { minFlushInterval := 1, maxFlushSize := 4 })
        { emits := [], consumeResult := false }
        = ({ newMetricList 5 { minFlushInterval := 1, maxFlushSize := 4 } with
              aggregations :=
                (newMetricList 5 { minFlushInterval := 1, maxFlushSize := 4 }).aggregations
                  ++ [some { emits := [], consumeResult := false }] },
           Except.ok (newMetricList 5
              { minFlushInterval := 1, maxFlushSize := 4 }).aggregations.length)) :=
  ⟨by decide,
   C6_pushback_closed_open
     (newMetricList 5 { minFlushInterval := 1, maxFlushSize := 4 })
     { emits := [], consumeResult := false }
     [{ emits := [], consumeResult := false }] (by decide)⟩

/-- C7: for every resolution and options, the list built by `newMetricList`
has `flushInterval = max resolution minFlushInterval` (so in particular
`flushInterval ≥ max(resolution, minFlushInterval)`), and no operation
(`PushBack`, `Close`, `Flush`) ever changes `flushInterval` or `resolution`,
so the bound holds for every list at all times. -/
theorem C7_flush_interval (resolution : Nat) (opts : Options)
    (st : MetricListState) (v : MetricElem) (tailSinkOk : Bool) :
    (newMetricList resolution opts).flushInterval
        = max resolution opts.minFlushInterval ∧
    (newMetricList resolution opts).flushInterval
        = max (newMetricList resolution opts).resolution opts.minFlushInterval ∧
    (PushBack st v).1.flushInterval = st.flushInterval ∧
    st.Close.flushInterval = st.flushInterval ∧
    (st.Flush tailSinkOk).state.flushInterval = st.flushInterval ∧
    (st.Flush tailSinkOk).state.resolution = st.resolution := by
  have hmax :
      (newMetricList resolution opts).flushInterval
        = max resolution opts.minFlushInterval := by
    show (if resolution < opts.minFlushInterval then opts.minFlushInterval
          else resolution) = max resolution opts.minFlushInterval
    split <;> omega
  refine ⟨hmax, hmax, ?_, ?_, rfl, rfl⟩
  · unfold PushBack
    split <;> rfl
  · unfold MetricListState.Close
    split <;> rfl

/-- C8: while the registry is not closed, two successive `FindOrCreate` calls
with the same resolution return the same list and the second call creates
nothing (registry state and result are unchanged); the first call returns a
list, not an error; after the registry is closed, `FindOrCreate` fails with
the `errListsClosed` error and changes nothing. -/
theorem C8_find_or_create_idempotent (L M : MetricLists) (resolution : Nat)
    (hL : L.closed = false) (hM : M.closed = true) :
    (L.FindOrCreate resolution).1.FindOrCreate resolution
        = L.FindOrCreate resolution ∧
    isOkResult (L.FindOrCreate resolution).2 = true ∧
    M.FindOrCreate resolution = (M, .error .listsClosed) := by
  refine ⟨?_, ?_, ?_⟩
  · cases hlook : L.lists.lookup resolution with
    | some l => simp [MetricLists.FindOrCreate, hL, hlook]
    | none =>
        simp [MetricLists.FindOrCreate, hL, hlook,
          lookup_append_of_none resolution (newMetricList resolution L.opts)
            L.lists hlook]
  · cases hlook : L.lists.lookup resolution with
    | some l => simp [MetricLists.FindOrCreate, hL, hlook, isOkResult]
    | none => simp [MetricLists.FindOrCreate, hL, hlook, isOkResult]
  · simp [MetricLists.FindOrCreate, hM]

/-- C8, witness: a fresh registry (open) and the same registry closed, at
resolution 7. -/
theorem C8_find_or_create_idempotent_witness :
    (newMetricLists { minFlushInterval := 1, maxFlushSize := 4 }).closed = false ∧
    (newMetricLists { minFlushInterval := 1, maxFlushSize := 4 }).Close.closed = true ∧
    (((newMetricLists { minFlushInterval := 1, maxFlushSize := 4 }).FindOrCreate 7).1.FindOrCreate 7
        = (newMetricLists { minFlushInterval := 1, maxFlushSize := 4 }).FindOrCreate 7 ∧
     isOkResult ((newMetricLists { minFlushInterval := 1, maxFlushSize := 4 }).FindOrCreate 7).2
        = true ∧
     (newMetricLists { minFlushInterval := 1, maxFlushSize := 4 }).Close.FindOrCreate 7
        = ((newMetricLists { minFlushInterval := 1, maxFlushSize := 4 }).Close,
           .error .listsClosed)) :=
  ⟨by decide, by decide,
   C8_find_or_create_idempotent
     (newMetricLists { minFlushInterval := 1, maxFlushSize := 4 })
     (newMetricLists { minFlushInterval := 1, maxFlushSize := 4 }).Close
     7 (by decide) (by decide)⟩

/-- C9: `Close` is idempotent on both a list and the registry — for every
`n ≥ 1`, closing `n` times leaves the same state as closing once; the
registry's `Close` sets its closed flag and closes every contained list. -/
theorem C9_close_idempotent (st : MetricListState) (L : MetricLists) (n : Nat)
    (hn : 1 ≤ n) (hL : L.closed = false) :
    closeListN n st = st.Close ∧
    closeListsN n L = L.Close ∧
    L.Close.closed = true ∧
    L.Close.lists = L.lists.map (fun p => (p.1, p.2.Close)) ∧
    L.Close.lists.all (fun p => p.2.closed) = true := by
  obtain ⟨m, rfl⟩ : ∃ m, n = m + 1 := ⟨n - 1, by omega⟩
  refine ⟨closeListN_succ st m, closeListsN_succ L m, closeLists_closed L, ?_, ?_⟩
  · unfold MetricLists.Close
    simp [hL]
  · unfold MetricLists.Close
    simp only [hL]
    refine List.all_eq_true.mpr ?_
    intro x hx
    simp only [Bool.false_eq_true, if_false] at hx
    obtain ⟨p, _, rfl⟩ := List.mem_map.mp hx
    exact closeList_closed p.2

/-- C9, witness: a registry holding one open list, closed twice. -/
theorem C9_close_idempotent_witness :
    1 ≤ 2 ∧
    ({ opts := { minFlushInterval := 1, maxFlushSize := 4 }, closed := false,
       lists := [(3, newMetricList 3 { minFlushInterval := 1, maxFlushSize := 4 })] } :
       MetricLists).closed = false ∧
    (closeListN 2 (newMetricList 3 { minFlushInterval := 1, maxFlushSize := 4 })
        = (newMetricList 3 { minFlushInterval := 1, maxFlushSize := 4 }).Close ∧
     closeListsN 2
        { opts := { minFlushInterval := 1, maxFlushSize := 4 }, closed := false,
          lists := [(3, newMetricList 3 { minFlushInterval := 1, maxFlushSize := 4 })] }
        = ({ opts := { minFlushInterval := 1, maxFlushSize := 4 }, closed := false,
             lists := [(3, newMetricList 3 { minFlushInterval := 1, maxFlushSize := 4 })] } :
             MetricLists).Close ∧
     ({ opts := { minFlushInterval := 1, maxFlushSize := 4 }, closed := false,
        lists := [(3, newMetricList 3 { minFlushInterval := 1, maxFlushSize := 4 })] } :
        MetricLists).Close.closed = true ∧
     ({ opts := { minFlushInterval := 1, maxFlushSize := 4 }, closed := false,
        lists := [(3, newMetricList 3 { minFlushInterval := 1, maxFlushSize := 4 })] } :
        MetricLists).Close.lists
        = [(3, newMetricList 3 { minFlushInterval := 1, maxFlushSize := 4 })].map
            (fun p => (p.1, p.2.Close)) ∧
     ({ opts := { minFlushInterval := 1, maxFlushSize := 4 }, closed := false,
        lists := [(3, newMetricList 3 { minFlushInterval := 1, maxFlushSize := 4 })] } :
        MetricLists).Close.lists.all (fun p => p.2.closed) = true) :=
  ⟨by decide, by decide,
   C9_close_idempotent
     (newMetricList 3 { minFlushInterval := 1, maxFlushSize := 4 })
     { opts := { minFlushInterval := 1, maxFlushSize := 4 }, closed := false,
       lists := [(3, newMetricList 3 { minFlushInterval := 1, maxFlushSize := 4 })] }
     2 (by decide) (by decide)⟩

/-- C10: after any `Flush` returns, the list's current encoder buffer is
empty, whatever the sink outcomes were; likewise Phase C taken alone always
leaves an empty current buffer. -/
theorem C10_post_flush_buffer_empty (st : MetricListState) (tailSinkOk : Bool)
    (s : EmitState) (sinkOk : Bool) :
    ((st.Flush tailSinkOk).state).emit.buffer = [] ∧
    (flushTail s sinkOk).buffer = [] := by
  constructor
  · simp [MetricListState.Flush, flushTail_buffer]
  · exact flushTail_buffer s sinkOk

end M3Agg

